import Mathlib

/-!
Verification of the billiards mini-game core of the treasure-hunt repository
(file src/puzzles/BilliardsChallengePuzzle.tsx).

The development shallowly embeds the data model and the operations of the
game: the fixed table geometry, the ball record, the subset-sum target
generator, the per-frame motion integration, the pairwise collision
resolution, the pocket evaluation (cue-ball foul, numbered-ball pocketing,
overshoot reset, solved detection) and the aim-release shot assignment.
Positions and velocities are real numbers; pocketed counts, pocketed sums,
ball numbers and target sums are natural numbers, exactly as the JavaScript
integers behave on these quantities.  The random draws of the target
generator are modelled by a natural-number seed that selects an index into
the feasible-target list, and the scheduling of the external completion
callback is modelled by a boolean flag.
-/

/-- Canvas width in pixels (source constant canvasWidth). -/
def canvasWidth : ℝ := 800

/-- Canvas height in pixels (source constant canvasHeight). -/
def canvasHeight : ℝ := 400

/-- Margin of the felt inside the canvas (source constant tableMargin). -/
def tableMargin : ℝ := 40

/-- Left edge of the felt. -/
def feltLeft : ℝ := tableMargin

/-- Top edge of the felt. -/
def feltTop : ℝ := tableMargin

/-- Right edge of the felt. -/
def feltRight : ℝ := canvasWidth - tableMargin

/-- Bottom edge of the felt. -/
def feltBottom : ℝ := canvasHeight - tableMargin

/-- Friction decay base per simulation second (source constant baseFrictionPerSec). -/
def baseFrictionPerSec : ℝ := 0.85

/-- Capture radius of each pocket (source constant pocketRadius). -/
def pocketRadius : ℝ := 30

/-- A pocket is a fixed point on the table (source array pockets). -/
structure Pocket where
  x : ℝ
  y : ℝ

/-- The four corner pockets of the table. -/
def pockets : List Pocket :=
  [⟨feltLeft, feltTop⟩, ⟨feltRight, feltTop⟩, ⟨feltLeft, feltBottom⟩, ⟨feltRight, feltBottom⟩]

/-- The fixed catalog of numbered-ball values (source availableBallNumbers). -/
def availableBallNumbers : List ℕ := [2, 3, 7, 8, 11, 13, 17, 5, 6, 9, 12, 10]

/-- One physical ball of the simulation (source Ball record). -/
structure Ball where
  number : ℕ
  x : ℝ
  y : ℝ
  vx : ℝ
  vy : ℝ
  radius : ℝ
  color : String
  active : Bool
  initialX : ℝ
  initialY : ℝ

/-- Helper of computeValidTargets: the recursive include/exclude enumeration.
The accumulator list plays the part of the JavaScript Set with its insertion
order; a sum is appended only when it is not already present, exactly as
Set.add behaves, and a leaf contributes only when at least 7 values were
included. -/
def collectTargets : List ℕ → ℕ → ℕ → List ℕ → List ℕ
  | [], count, sum, acc =>
      if 7 ≤ count then (if sum ∈ acc then acc else acc ++ [sum]) else acc
  | x :: rest, count, sum, acc =>
      collectTargets rest count sum (collectTargets rest (count + 1) (sum + x) acc)

/-- All distinct sums of subsets of size at least 7 of the given numbers
(source computeValidTargets), in first-reached order. -/
def computeValidTargets (numbers : List ℕ) : List ℕ :=
  collectTargets numbers 0 0 []

/-- The target generator over an arbitrary catalog (body of the source
generateRandomTarget).  The seed r models Math.random: the chosen index into
the feasible-target list is r taken modulo the list length. -/
def generateRandomTargetFrom (numbers : List ℕ) (r : ℕ) : ℕ :=
  let validTargets := computeValidTargets numbers
  let maxPossibleSum := numbers.foldl (· + ·) 0
  let feasibleTargets := validTargets.filter (· ≤ maxPossibleSum)
  if feasibleTargets.length = 0 then maxPossibleSum
  else feasibleTargets.getD (r % feasibleTargets.length) maxPossibleSum

/-- The target generator over the fixed catalog (source generateRandomTarget). -/
def generateRandomTarget (r : ℕ) : ℕ :=
  generateRandomTargetFrom availableBallNumbers r

/-- The cue ball of the initial layout. -/
noncomputable def initBall0 : Ball :=
  { number := 0, x := feltLeft + 60, y := canvasHeight / 2, vx := 0, vy := 0, radius := 15,
    color := "white", active := true, initialX := feltLeft + 60, initialY := canvasHeight / 2 }

/-- Numbered ball 2 of the initial layout. -/
def initBall2 : Ball :=
  { number := 2, x := 400, y := 80, vx := 0, vy := 0, radius := 15,
    color := "#E74C3C", active := true, initialX := 400, initialY := 80 }

/-- Numbered ball 3 of the initial layout. -/
def initBall3 : Ball :=
  { number := 3, x := 600, y := 200, vx := 0, vy := 0, radius := 15,
    color := "#9B59B6", active := true, initialX := 600, initialY := 200 }

/-- Numbered ball 7 of the initial layout. -/
def initBall7 : Ball :=
  { number := 7, x := 700, y := 320, vx := 0, vy := 0, radius := 15,
    color := "#F39C12", active := true, initialX := 700, initialY := 320 }

/-- Numbered ball 8 of the initial layout. -/
def initBall8 : Ball :=
  { number := 8, x := 450, y := 250, vx := 0, vy := 0, radius := 15,
    color := "#3498DB", active := true, initialX := 450, initialY := 250 }

/-- Numbered ball 11 of the initial layout. -/
def initBall11 : Ball :=
  { number := 11, x := 550, y := 100, vx := 0, vy := 0, radius := 15,
    color := "#2ECC71", active := true, initialX := 550, initialY := 100 }

/-- Numbered ball 13 of the initial layout. -/
def initBall13 : Ball :=
  { number := 13, x := 350, y := 150, vx := 0, vy := 0, radius := 15,
    color := "#E91E63", active := true, initialX := 350, initialY := 150 }

/-- Numbered ball 17 of the initial layout. -/
def initBall17 : Ball :=
  { number := 17, x := 650, y := 300, vx := 0, vy := 0, radius := 15,
    color := "#1ABC9C", active := true, initialX := 650, initialY := 300 }

/-- Numbered ball 5 of the initial layout. -/
def initBall5 : Ball :=
  { number := 5, x := 250, y := 100, vx := 0, vy := 0, radius := 15,
    color := "#F1C40F", active := true, initialX := 250, initialY := 100 }

/-- Numbered ball 6 of the initial layout. -/
def initBall6 : Ball :=
  { number := 6, x := 200, y := 300, vx := 0, vy := 0, radius := 15,
    color := "#FF9800", active := true, initialX := 200, initialY := 300 }

/-- Numbered ball 9 of the initial layout. -/
def initBall9 : Ball :=
  { number := 9, x := 500, y := 300, vx := 0, vy := 0, radius := 15,
    color := "#00BCD4", active := true, initialX := 500, initialY := 300 }

/-- Numbered ball 12 of the initial layout. -/
def initBall12 : Ball :=
  { number := 12, x := 300, y := 350, vx := 0, vy := 0, radius := 15,
    color := "#8BC34A", active := true, initialX := 300, initialY := 350 }

/-- Numbered ball 10 of the initial layout. -/
def initBall10 : Ball :=
  { number := 10, x := 300, y := 200, vx := 0, vy := 0, radius := 15,
    color := "#673AB7", active := true, initialX := 300, initialY := 200 }

/-- The initial ball layout in source order (source initialBalls). -/
noncomputable def initialBalls : List Ball :=
  [initBall0, initBall2, initBall3, initBall7, initBall8, initBall11, initBall13,
   initBall17, initBall5, initBall6, initBall9, initBall12, initBall10]

/-- The aggregate game state: the ball set, the running pocketed count and
sum, the current target, and whether the one-shot deferred completion
callback has been scheduled. -/
structure GameState where
  balls : List Ball
  pocketedCount : ℕ
  pocketedSum : ℕ
  targetSum : ℕ
  solvedScheduled : Bool

/-- The game state at mount: initial layout, zero counters, a freshly drawn
target (the seed r models the Math.random draw of the useState initializer). -/
noncomputable def initialGameState (r : ℕ) : GameState :=
  { balls := initialBalls, pocketedCount := 0, pocketedSum := 0,
    targetSum := generateRandomTarget r, solvedScheduled := false }

/-- The per-ball restoration performed by resetGame. -/
def resetBall (ball : Ball) : Ball :=
  { ball with x := ball.initialX, y := ball.initialY, vx := 0, vy := 0, active := true }

/-- Full game reset (source resetGame): every ball back to its initial
position with zero velocity and active again, both counters zeroed, and the
freshly drawn target installed. -/
def resetGame (newTarget : ℕ) (s : GameState) : GameState :=
  { balls := s.balls.map resetBall, pocketedCount := 0, pocketedSum := 0,
    targetSum := newTarget, solvedScheduled := s.solvedScheduled }

/-- Deactivate the ball carrying the given number (the in-place
ball.active = false assignment of the pocketing branch). -/
def deactivateBall (balls : List Ball) (n : ℕ) : List Ball :=
  balls.map fun b => if b.number = n then { b with active := false } else b

/-- Pocketing of an active numbered ball (source updatePhysics, pocket loop,
numbered branch): deactivate the ball, extend the running sum and count,
then either reset on overshoot, schedule the completion callback when the
win condition holds, or simply continue.  The seed r feeds the target
generator should a reset be needed; the boolean result records whether this
event scheduled the completion callback. -/
def pocketNumberedStep (r : ℕ) (s : GameState) (n : ℕ) : GameState × Bool :=
  let newSum := s.pocketedSum + n
  let newCount := s.pocketedCount + 1
  let s1 : GameState :=
    { s with balls := deactivateBall s.balls n, pocketedSum := newSum, pocketedCount := newCount }
  if s.targetSum < newSum then
    (resetGame (generateRandomTarget r) s1, false)
  else if 7 ≤ newCount ∧ newSum = s.targetSum then
    ({ s1 with solvedScheduled := true }, true)
  else
    (s1, false)

/-- The cue-ball respawn applied when the cue ball enters a pocket: back to
its initial coordinates with zero velocity, every other field untouched. -/
def cueRespawn (ball : Ball) : Ball :=
  if ball.number = 0 then
    { ball with x := ball.initialX, y := ball.initialY, vx := 0, vy := 0 }
  else ball

/-- Cue-ball foul handling (source updatePhysics, pocket loop, cue branch):
only the cue ball is touched; counters and target are left alone. -/
def cueFoul (s : GameState) : GameState :=
  { s with balls := s.balls.map cueRespawn }

/-- Evaluation of one ball against one pocket (source pocket loop body):
inside the capture radius, the cue ball is respawned regardless of its
active flag, an active numbered ball is pocketed, and an inactive numbered
ball is ignored. -/
noncomputable def checkBallPocket (r : ℕ) (s : GameState) (b : Ball) (p : Pocket) : GameState :=
  if Real.sqrt ((b.x - p.x) ^ 2 + (b.y - p.y) ^ 2) < pocketRadius then
    if b.number = 0 then cueFoul s
    else if b.active then (pocketNumberedStep r s b.number).1
    else s
  else s

/-- One motion-integration step for one ball (source updatePhysics, motion
map): explicit Euler position advance, exponential friction decay, then the
elastic boundary bounce with clamping on each axis.  The argument is the
already scaled simulation time dtSec = dt / 100. -/
noncomputable def updateBallMotion (dtSec : ℝ) (ball : Ball) : Ball :=
  if ball.active = false then ball
  else
    let x1 := ball.x + ball.vx * dtSec
    let y1 := ball.y + ball.vy * dtSec
    let frictionMultiplier := baseFrictionPerSec ^ dtSec
    let vx1 := ball.vx * frictionMultiplier
    let vy1 := ball.vy * frictionMultiplier
    let xb :=
      if x1 - ball.radius < feltLeft ∨ feltRight < x1 + ball.radius then
        (max (feltLeft + ball.radius) (min (feltRight - ball.radius) x1), -vx1)
      else (x1, vx1)
    let yb :=
      if y1 - ball.radius < feltTop ∨ feltBottom < y1 + ball.radius then
        (max (feltTop + ball.radius) (min (feltBottom - ball.radius) y1), -vy1)
      else (y1, vy1)
    { ball with x := xb.1, vx := xb.2, y := yb.1, vy := yb.2 }

/-- Center distance of two balls (Math.hypot of the coordinate differences). -/
noncomputable def ballDist (a b : Ball) : ℝ :=
  Real.sqrt ((b.x - a.x) ^ 2 + (b.y - a.y) ^ 2)

/-- The x component of the unit collision normal from a to b. -/
noncomputable def normalX (a b : Ball) : ℝ := (b.x - a.x) / ballDist a b

/-- The y component of the unit collision normal from a to b. -/
noncomputable def normalY (a b : Ball) : ℝ := (b.y - a.y) / ballDist a b

/-- Resolution of one pair of balls (source handleBallCollisions, inner loop
body): for two active balls whose center distance is positive and below the
sum of the radii, exchange the velocity components along the unit normal,
keep the tangential components, and push the balls apart by half the
overlap each. -/
noncomputable def resolvePair (a b : Ball) : Ball × Ball :=
  if !a.active || !b.active then (a, b)
  else
    let dx := b.x - a.x
    let dy := b.y - a.y
    let dist := Real.sqrt (dx ^ 2 + dy ^ 2)
    let minDist := a.radius + b.radius
    if dist < minDist ∧ 0 < dist then
      let nx := dx / dist
      let ny := dy / dist
      let vAn := a.vx * nx + a.vy * ny
      let vBn := b.vx * nx + b.vy * ny
      let overlap := minDist - dist
      ({ a with vx := a.vx - vAn * nx + vBn * nx,
                vy := a.vy - vAn * ny + vBn * ny,
                x := a.x - overlap / 2 * nx,
                y := a.y - overlap / 2 * ny },
       { b with vx := b.vx - vBn * nx + vAn * nx,
                vy := b.vy - vBn * ny + vAn * ny,
                x := b.x + overlap / 2 * nx,
                y := b.y + overlap / 2 * ny })
    else (a, b)

/-- Resolution of one ball against every later ball of the list in order,
threading the updated states exactly as the in-place inner loop does. -/
noncomputable def resolveWithRest : Ball → List Ball → Ball × List Ball
  | a, [] => (a, [])
  | a, b :: rest =>
    let ab := resolvePair a b
    let ar := resolveWithRest ab.1 rest
    (ar.1, ab.2 :: ar.2)

/-- The length of the rest list is preserved by resolveWithRest. -/
theorem resolveWithRest_length (a : Ball) (l : List Ball) :
    (resolveWithRest a l).2.length = l.length := by
  induction l generalizing a with
  | nil => rfl
  | cons b rest ih => simp [resolveWithRest, ih]

/-- Full pairwise collision pass (source handleBallCollisions): every
unordered pair with the smaller index first, in iteration order, with all
in-place updates visible to the later pairs. -/
noncomputable def handleBallCollisions : List Ball → List Ball
  | [] => []
  | a :: rest =>
    (resolveWithRest a rest).1 :: handleBallCollisions (resolveWithRest a rest).2
termination_by l => l.length
decreasing_by
  simp only [resolveWithRest_length, List.length_cons]
  omega

/-- The velocity assignment applied to one ball on aim-release (source
handleMouseUp, map body): only the active cue ball with a nonzero drag
distance receives the normalized, power-scaled velocity. -/
noncomputable def shotBall (mouseX mouseY : ℝ) (ball : Ball) : Ball :=
  if ball.number = 0 ∧ ball.active = true then
    let dx := mouseX - ball.x
    let dy := mouseY - ball.y
    let distance := Real.sqrt (dx ^ 2 + dy ^ 2)
    if 0 < distance then
      let unitX := dx / distance
      let unitY := dy / distance
      let power := min (distance * 0.5) 1000
      { ball with vx := unitX * power, vy := unitY * power }
    else ball
  else ball

/-- Aim-release handling (source handleMouseUp): a no-op unless aiming,
otherwise the shot assignment mapped over the ball list. -/
noncomputable def handleMouseUp (aiming : Bool) (mouseX mouseY : ℝ) (balls : List Ball) :
    List Ball :=
  if !aiming then balls
  else balls.map (shotBall mouseX mouseY)

/-- The numbers of the numbered balls that are currently pocketed
(inactive with a nonzero number), summed. -/
def pocketedNumbersSum (balls : List Ball) : ℕ :=
  ((balls.filter fun b => !b.active && b.number != 0).map Ball.number).sum

/-- The count of the numbered balls that are currently pocketed. -/
def pocketedNumbersCount (balls : List Ball) : ℕ :=
  (balls.filter fun b => !b.active && b.number != 0).length

/-- One observable transition of the game state: a motion-plus-collision
frame, the pocketing of an active numbered ball, a cue-ball foul, or a full
reset.  The pocketing constructor requires an active ball carrying the
pocketed number, as in the source, and abstracts the geometric trigger. -/
inductive GameStep : GameState → GameState → Prop
  | motion (dt : ℝ) (s : GameState) :
      GameStep s { s with balls := handleBallCollisions (s.balls.map (updateBallMotion (dt / 100))) }
  | pocketNumbered (r n : ℕ) (s : GameState) :
      n ≠ 0 → (∃ b ∈ s.balls, b.number = n ∧ b.active = true) →
      GameStep s (pocketNumberedStep r s n).1
  | cueFoulStep (s : GameState) : GameStep s (cueFoul s)
  | resetStep (r : ℕ) (s : GameState) : GameStep s (resetGame (generateRandomTarget r) s)

/-- The states reachable from the mount state through game transitions. -/
inductive Reachable : GameState → Prop
  | init (r : ℕ) : Reachable (initialGameState r)
  | step {s t : GameState} : Reachable s → GameStep s t → Reachable t

/-- Membership in the JavaScript-Set-style insertion of one sum. -/
theorem mem_insertNew (t s : ℕ) (acc : List ℕ) :
    t ∈ (if s ∈ acc then acc else acc ++ [s]) ↔ t ∈ acc ∨ t = s := by
  split_ifs with h
  · constructor
    · exact fun ht => Or.inl ht
    · rintro (ht | rfl)
      · exact ht
      · exact h
  · simp [List.mem_append]

/-- The accumulator-threaded enumeration collects exactly the sums of the
sublists together with the included count reaching 7, on top of whatever the
accumulator already held. -/
theorem mem_collectTargets (ns : List ℕ) : ∀ (c s : ℕ) (acc : List ℕ) (t : ℕ),
    t ∈ collectTargets ns c s acc ↔
      t ∈ acc ∨ ∃ S : List ℕ, S.Sublist ns ∧ 7 ≤ c + S.length ∧ t = s + S.sum := by
  induction ns with
  | nil =>
    intro c s acc t
    simp only [collectTargets]
    split_ifs with h7 hmem
    · constructor
      · exact fun ht => Or.inl ht
      · rintro (ht | ⟨S, hS, _, rfl⟩)
        · exact ht
        · rw [List.sublist_nil.mp hS]
          simpa using hmem
    · rw [List.mem_append, List.mem_singleton]
      constructor
      · rintro (ht | rfl)
        · exact Or.inl ht
        · exact Or.inr ⟨[], List.Sublist.refl _, by simpa using h7, by simp⟩
      · rintro (ht | ⟨S, hS, _, rfl⟩)
        · exact Or.inl ht
        · rw [List.sublist_nil.mp hS]
          simp
    · constructor
      · exact fun ht => Or.inl ht
      · rintro (ht | ⟨S, hS, hlen, rfl⟩)
        · exact ht
        · rw [List.sublist_nil.mp hS] at hlen
          simp at hlen
          omega
  | cons x rest ih =>
    intro c s acc t
    simp only [collectTargets]
    rw [ih, ih]
    constructor
    · rintro ((ht | ⟨S, hS, hlen, rfl⟩) | ⟨S, hS, hlen, rfl⟩)
      · exact Or.inl ht
      · exact Or.inr ⟨x :: S, List.cons_sublist_cons.mpr hS, by simp; omega, by simp; ring⟩
      · exact Or.inr ⟨S, hS.trans (List.sublist_cons_self x rest), hlen, rfl⟩
    · rintro (ht | ⟨S, hS, hlen, rfl⟩)
      · exact Or.inl (Or.inl ht)
      · rcases List.sublist_cons_iff.mp hS with hS' | ⟨S', rfl, hS'⟩
        · exact Or.inr ⟨S, hS', hlen, rfl⟩
        · exact Or.inl (Or.inr ⟨S', hS', by simp at hlen; omega, by simp; ring⟩)

/-- The enumeration never inserts a sum twice. -/
theorem collectTargets_nodup (ns : List ℕ) : ∀ (c s : ℕ) (acc : List ℕ),
    acc.Nodup → (collectTargets ns c s acc).Nodup := by
  induction ns with
  | nil =>
    intro c s acc hacc
    simp only [collectTargets]
    split_ifs with h7 hmem
    · exact hacc
    · simp [List.nodup_append, hacc, hmem]
    · exact hacc
  | cons x rest ih =>
    intro c s acc hacc
    simp only [collectTargets]
    exact ih _ _ _ (ih _ _ _ hacc)

/-- Membership characterization of computeValidTargets. -/
theorem mem_computeValidTargets (ns : List ℕ) (t : ℕ) :
    t ∈ computeValidTargets ns ↔
      ∃ S : List ℕ, S.Sublist ns ∧ 7 ≤ S.length ∧ S.sum = t := by
  rw [computeValidTargets, mem_collectTargets]
  constructor
  · rintro (ht | ⟨S, hS, hlen, rfl⟩)
    · simp at ht
    · exact ⟨S, hS, by simpa using hlen, by simp⟩
  · rintro ⟨S, hS, hlen, rfl⟩
    exact Or.inr ⟨S, hS, by simpa using hlen, by simp⟩

/-- When the feasible-target list is nonempty, the generated target is drawn
from it, whatever the random seed. -/
theorem generateRandomTargetFrom_mem (ns : List ℕ) (r : ℕ)
    (h : (computeValidTargets ns).filter (· ≤ ns.foldl (· + ·) 0) ≠ []) :
    generateRandomTargetFrom ns r ∈
      (computeValidTargets ns).filter (· ≤ ns.foldl (· + ·) 0) := by
  have hlen : 0 < ((computeValidTargets ns).filter (· ≤ ns.foldl (· + ·) 0)).length :=
    List.length_pos.mpr h
  simp only [generateRandomTargetFrom]
  rw [if_neg (by omega)]
  rw [List.getD_eq_getElem _ _ (Nat.mod_lt _ hlen)]
  exact List.getElem_mem _

/-- C2: every target produced by the generator over the fixed 12-value
catalog is the sum of some subset of the catalog of size at least 7;
computeValidTargets enumerates exactly the distinct sums of sublists of
size at least 7; and an empty enumeration makes the generator fall back to
the sum of the whole catalog. -/
theorem c2_target_feasibility :
    (∀ t : ℕ, t ∈ computeValidTargets availableBallNumbers ↔
       ∃ S : List ℕ, S.Sublist availableBallNumbers ∧ 7 ≤ S.length ∧ S.sum = t) ∧
    (computeValidTargets availableBallNumbers).Nodup ∧
    (∀ r : ℕ, ∃ S : List ℕ, S.Sublist availableBallNumbers ∧ 7 ≤ S.length ∧
       S.sum = generateRandomTarget r) ∧
    (∀ (ns : List ℕ) (r : ℕ), computeValidTargets ns = [] →
       generateRandomTargetFrom ns r = ns.foldl (· + ·) 0) := by
  refine ⟨fun t => mem_computeValidTargets _ t, collectTargets_nodup _ 0 0 [] List.nodup_nil,
    fun r => ?_, fun ns r h => ?_⟩
  · have h103 : (103 : ℕ) ∈ computeValidTargets availableBallNumbers :=
      (mem_computeValidTargets _ _).mpr
        ⟨availableBallNumbers, List.Sublist.refl _, by decide, by decide⟩
    have hfeas : (103 : ℕ) ∈
        (computeValidTargets availableBallNumbers).filter
          (· ≤ availableBallNumbers.foldl (· + ·) 0) :=
      List.mem_filter.mpr ⟨h103, by decide⟩
    have hm := generateRandomTargetFrom_mem availableBallNumbers r
      (List.ne_nil_of_mem hfeas)
    exact (mem_computeValidTargets _ _).mp (List.mem_filter.mp hm).1
  · simp [generateRandomTargetFrom, h]

/-- C1: a numbered-ball pocketing schedules the completion callback exactly
when, immediately after adding the ball, the new count reaches 7 and the
new sum equals the current target; an overshoot or any other outcome
schedules nothing. -/
theorem c1_solved_signal_iff (r : ℕ) (s : GameState) (n : ℕ) :
    (pocketNumberedStep r s n).2 = true ↔
      7 ≤ s.pocketedCount + 1 ∧ s.pocketedSum + n = s.targetSum := by
  simp only [pocketNumberedStep]
  split_ifs with h1 h2
  · simp only [Bool.false_eq_true, false_iff]
    rintro ⟨-, heq⟩
    omega
  · simpa using h2
  · simpa using h2

/-- The target field of a reset state is the fresh target. -/
theorem resetGame_targetSum (nt : ℕ) (s : GameState) : (resetGame nt s).targetSum = nt := rfl

/-- C3: when a pocketing pushes the running sum strictly past the target,
the resulting state is a full reset: every ball restored to its initial
position with zero velocity and active again, both counters zeroed, and a
fresh target drawn from the generator. -/
theorem c3_overshoot_resets (r : ℕ) (s : GameState) (n : ℕ)
    (h : s.targetSum < s.pocketedSum + n) :
    (pocketNumberedStep r s n).1.balls = s.balls.map resetBall ∧
    (pocketNumberedStep r s n).1.pocketedCount = 0 ∧
    (pocketNumberedStep r s n).1.pocketedSum = 0 ∧
    (pocketNumberedStep r s n).1.targetSum = generateRandomTarget r := by
  have hstep : pocketNumberedStep r s n =
      (resetGame (generateRandomTarget r)
        { s with
            balls := deactivateBall s.balls n
            pocketedSum := s.pocketedSum + n
            pocketedCount := s.pocketedCount + 1 },
        false) := by
    simp only [pocketNumberedStep]
    rw [if_pos h]
  rw [hstep]
  refine ⟨?_, rfl, rfl, resetGame_targetSum _ _⟩
  simp only [resetGame, deactivateBall, List.map_map]
  apply List.map_congr_left
  intro b _
  by_cases hb : b.number = n
  · simp only [Function.comp_apply, if_pos hb]
    rfl
  · simp only [Function.comp_apply, if_neg hb]

/-- A sample ball used by concrete witness states. -/
def witnessBallA : Ball :=
  { number := 4, x := 70, y := 70, vx := 1, vy := 2, radius := 15,
    color := "gray", active := true, initialX := 200, initialY := 220 }

/-- A sample game state three short of a target of five. -/
def witnessState : GameState :=
  { balls := [witnessBallA], pocketedCount := 1, pocketedSum := 3,
    targetSum := 5, solvedScheduled := false }

/-- Witness of C3 at a concrete overshooting state. -/
theorem c3_overshoot_resets_witness :
    witnessState.targetSum < witnessState.pocketedSum + 4 ∧
    ((pocketNumberedStep 0 witnessState 4).1.balls = witnessState.balls.map resetBall ∧
     (pocketNumberedStep 0 witnessState 4).1.pocketedCount = 0 ∧
     (pocketNumberedStep 0 witnessState 4).1.pocketedSum = 0 ∧
     (pocketNumberedStep 0 witnessState 4).1.targetSum = generateRandomTarget 0) :=
  ⟨by norm_num [witnessState], c3_overshoot_resets 0 witnessState 4 (by norm_num [witnessState])⟩

/-- C6: a cue ball inside a pocket capture radius triggers exactly the
cue-foul handling, whatever its active flag: the cue ball alone is moved to
its initial coordinates with zero velocity, while the counters, the target
and every other ball are untouched. -/
theorem c6_cue_foul_isolation (r : ℕ) (s : GameState) (b : Ball) (p : Pocket)
    (hin : Real.sqrt ((b.x - p.x) ^ 2 + (b.y - p.y) ^ 2) < pocketRadius)
    (hcue : b.number = 0) :
    checkBallPocket r s b p = cueFoul s ∧
    (cueFoul s).pocketedCount = s.pocketedCount ∧
    (cueFoul s).pocketedSum = s.pocketedSum ∧
    (cueFoul s).targetSum = s.targetSum ∧
    (cueFoul s).solvedScheduled = s.solvedScheduled ∧
    (cueFoul s).balls = s.balls.map cueRespawn ∧
    (∀ bb : Ball, bb.number ≠ 0 → cueRespawn bb = bb) ∧
    (∀ bb : Ball, bb.number = 0 →
      (cueRespawn bb).x = bb.initialX ∧ (cueRespawn bb).y = bb.initialY ∧
      (cueRespawn bb).vx = 0 ∧ (cueRespawn bb).vy = 0 ∧
      (cueRespawn bb).active = bb.active ∧ (cueRespawn bb).number = bb.number) := by
  refine ⟨?_, rfl, rfl, rfl, rfl, rfl, ?_, ?_⟩
  · simp only [checkBallPocket, if_pos hin, if_pos hcue]
  · intro bb hbb
    simp [cueRespawn, hbb]
  · intro bb hbb
    simp [cueRespawn, hbb]

/-- The top-left pocket, used by concrete witnesses. -/
def witnessPocket : Pocket := { x := feltLeft, y := feltTop }

/-- A cue ball sitting exactly on the top-left pocket center. -/
def witnessCue : Ball :=
  { number := 0, x := feltLeft, y := feltTop, vx := 3, vy := 4, radius := 15,
    color := "white", active := true, initialX := 100, initialY := 200 }

/-- A mid-game state whose only ball is the cue ball on a pocket. -/
def witnessCueState : GameState :=
  { balls := [witnessCue], pocketedCount := 2, pocketedSum := 9, targetSum := 54,
    solvedScheduled := false }

/-- Witness of C6 at a concrete cue-ball-in-pocket event. -/
theorem c6_cue_foul_isolation_witness :
    Real.sqrt ((witnessCue.x - witnessPocket.x) ^ 2 + (witnessCue.y - witnessPocket.y) ^ 2) <
      pocketRadius ∧
    witnessCue.number = 0 ∧
    checkBallPocket 0 witnessCueState witnessCue witnessPocket = cueFoul witnessCueState ∧
    (cueFoul witnessCueState).pocketedSum = witnessCueState.pocketedSum ∧
    (cueFoul witnessCueState).pocketedCount = witnessCueState.pocketedCount := by
  have hin : Real.sqrt ((witnessCue.x - witnessPocket.x) ^ 2 +
      (witnessCue.y - witnessPocket.y) ^ 2) < pocketRadius := by
    norm_num [witnessCue, witnessPocket, Real.sqrt_zero, pocketRadius]
  refine ⟨hin, rfl, ?_, ?_, ?_⟩
  · exact (c6_cue_foul_isolation 0 witnessCueState witnessCue witnessPocket hin rfl).1
  · exact (c6_cue_foul_isolation 0 witnessCueState witnessCue witnessPocket hin rfl).2.2.1
  · exact (c6_cue_foul_isolation 0 witnessCueState witnessCue witnessPocket hin rfl).2.1

/-- The observable tag of a ball list: number and active flag per ball. -/
def ballsTag (balls : List Ball) : List (ℕ × Bool) :=
  balls.map fun b => (b.number, b.active)

/-- The pocketed sum of a tag list. -/
def tagPocketSum (ts : List (ℕ × Bool)) : ℕ :=
  ((ts.filter fun t => !t.2 && t.1 != 0).map Prod.fst).sum

/-- The pocketed count of a tag list. -/
def tagPocketCount (ts : List (ℕ × Bool)) : ℕ :=
  (ts.filter fun t => !t.2 && t.1 != 0).length

/-- The pocketed sum and count only depend on the tag of the ball list. -/
theorem pocketed_eq_tag (l : List Ball) :
    pocketedNumbersSum l = tagPocketSum (ballsTag l) ∧
    pocketedNumbersCount l = tagPocketCount (ballsTag l) := by
  induction l with
  | nil => exact ⟨rfl, rfl⟩
  | cons a t ih =>
    by_cases hb : (!a.active && a.number != 0) = true
    · simp only [pocketedNumbersSum, pocketedNumbersCount, tagPocketSum, tagPocketCount,
        ballsTag, List.map_cons, List.filter_cons, hb, if_true, List.map_cons, List.sum_cons,
        List.length_cons] at ih ⊢
      exact ⟨by rw [ih.1], by rw [ih.2]⟩
    · simp only [pocketedNumbersSum, pocketedNumbersCount, tagPocketSum, tagPocketCount,
        ballsTag, List.map_cons, List.filter_cons, hb, if_false, Bool.false_eq_true] at ih ⊢
      exact ih

/-- Ball lists with the same tag have the same pocketed sum and count. -/
theorem pocketed_congr {l l' : List Ball} (h : ballsTag l = ballsTag l') :
    pocketedNumbersSum l = pocketedNumbersSum l' ∧
    pocketedNumbersCount l = pocketedNumbersCount l' := by
  refine ⟨?_, ?_⟩
  · rw [(pocketed_eq_tag l).1, (pocketed_eq_tag l').1, h]
  · rw [(pocketed_eq_tag l).2, (pocketed_eq_tag l').2, h]

/-- Ball lists with the same tag carry the same numbers. -/
theorem numbers_congr {l l' : List Ball} (h : ballsTag l = ballsTag l') :
    l.map Ball.number = l'.map Ball.number := by
  have h2 : (ballsTag l).map Prod.fst = (ballsTag l').map Prod.fst := by rw [h]
  simpa [ballsTag, List.map_map, Function.comp] using h2

/-- Motion integration changes neither the number nor the active flag. -/
theorem updateBallMotion_tag (d : ℝ) (b : Ball) :
    (updateBallMotion d b).number = b.number ∧ (updateBallMotion d b).active = b.active := by
  unfold updateBallMotion
  split_ifs with h
  · exact ⟨rfl, rfl⟩
  · exact ⟨rfl, rfl⟩

/-- Pair resolution changes neither numbers nor active flags. -/
theorem resolvePair_tag (a b : Ball) :
    ((resolvePair a b).1.number = a.number ∧ (resolvePair a b).1.active = a.active) ∧
    ((resolvePair a b).2.number = b.number ∧ (resolvePair a b).2.active = b.active) := by
  simp only [resolvePair]
  split_ifs with h1 h2
  · exact ⟨⟨rfl, rfl⟩, ⟨rfl, rfl⟩⟩
  · exact ⟨⟨rfl, rfl⟩, ⟨rfl, rfl⟩⟩
  · exact ⟨⟨rfl, rfl⟩, ⟨rfl, rfl⟩⟩

/-- Resolving one ball against a list keeps every tag in place. -/
theorem resolveWithRest_tag (l : List Ball) : ∀ a : Ball,
    ((resolveWithRest a l).1.number = a.number ∧ (resolveWithRest a l).1.active = a.active) ∧
    ballsTag (resolveWithRest a l).2 = ballsTag l := by
  induction l with
  | nil => exact fun a => ⟨⟨rfl, rfl⟩, rfl⟩
  | cons b rest ih =>
    intro a
    simp only [resolveWithRest]
    have hp := resolvePair_tag a b
    have hr := ih (resolvePair a b).1
    refine ⟨⟨hr.1.1.trans hp.1.1, hr.1.2.trans hp.1.2⟩, ?_⟩
    have h2 := hr.2
    simp only [ballsTag, List.map_cons] at h2 ⊢
    rw [hp.2.1, hp.2.2, h2]

/-- The full collision pass keeps every tag in place. -/
theorem handleBallCollisions_tag (l : List Ball) :
    ballsTag (handleBallCollisions l) = ballsTag l := by
  have H : ∀ (k : ℕ) (l : List Ball), l.length = k →
      ballsTag (handleBallCollisions l) = ballsTag l := by
    intro k
    induction k using Nat.strong_induction_on with
    | _ k ih =>
      intro l hl
      match l with
      | [] => simp [handleBallCollisions]
      | a :: rest =>
        rw [handleBallCollisions]
        have hr := resolveWithRest_tag rest a
        have hlen : (resolveWithRest a rest).2.length = rest.length :=
          resolveWithRest_length a rest
        have hrec := ih rest.length (by simp at hl; omega) (resolveWithRest a rest).2 hlen
        have h2 := hr.2
        simp only [ballsTag, List.map_cons] at hrec h2 ⊢
        rw [hr.1.1, hr.1.2, hrec, h2]
  exact H l.length l rfl

/-- Deactivation is the identity on a list free of the pocketed number. -/
theorem deactivateBall_not_mem (n : ℕ) (l : List Ball) (h : ∀ b ∈ l, b.number ≠ n) :
    deactivateBall l n = l := by
  induction l with
  | nil => rfl
  | cons a t ih =>
    simp only [deactivateBall, List.map_cons]
    rw [if_neg (h a (List.mem_cons_self a t))]
    have ht : deactivateBall t n = t := ih fun b hb => h b (List.mem_cons_of_mem a hb)
    simp only [deactivateBall] at ht
    rw [ht]

/-- Deactivation keeps the list of ball numbers. -/
theorem deactivateBall_numbers (n : ℕ) (l : List Ball) :
    (deactivateBall l n).map Ball.number = l.map Ball.number := by
  induction l with
  | nil => rfl
  | cons a t ih =>
    simp only [deactivateBall, List.map_cons] at ih ⊢
    by_cases hb : a.number = n
    · rw [if_pos hb, ih]
    · rw [if_neg hb, ih]

/-- Pocketing one active numbered ball with a duplicate-free number list
raises the pocketed sum by its number and the count by one. -/
theorem deactivateBall_pocketed (n : ℕ) (hn : n ≠ 0) (l : List Ball)
    (hnd : (l.map Ball.number).Nodup)
    (hex : ∃ b ∈ l, b.number = n ∧ b.active = true) :
    pocketedNumbersSum (deactivateBall l n) = pocketedNumbersSum l + n ∧
    pocketedNumbersCount (deactivateBall l n) = pocketedNumbersCount l + 1 := by
  induction l with
  | nil => simp at hex
  | cons a t ih =>
    simp only [List.map_cons, List.nodup_cons] at hnd
    rcases hex with ⟨b0, hb0mem, hb0num, hb0act⟩
    rcases List.mem_cons.mp hb0mem with rfl | hb0t
    · have htail : deactivateBall t n = t := by
        apply deactivateBall_not_mem
        intro b hb hbn
        have hmem : b.number ∈ t.map Ball.number := List.mem_map_of_mem Ball.number hb
        rw [hbn, ← hb0num] at hmem
        exact hnd.1 hmem
      simp only [deactivateBall, List.map_cons, if_pos hb0num]
      simp only [deactivateBall] at htail
      rw [htail]
      have hpredBefore : (!b0.active && b0.number != 0) = false := by
        rw [hb0act]; rfl
      have hpredAfter :
          (!(Ball.mk b0.number b0.x b0.y b0.vx b0.vy b0.radius b0.color false b0.initialX
            b0.initialY).active && (Ball.mk b0.number b0.x b0.y b0.vx b0.vy b0.radius b0.color
            false b0.initialX b0.initialY).number != 0) = true := by
        simp [hb0num, hn]
      constructor
      · simp only [pocketedNumbersSum, List.filter_cons, hpredBefore, hpredAfter,
          Bool.false_eq_true, if_false, if_true, List.map_cons, List.sum_cons]
        rw [hb0num]
        omega
      · simp only [pocketedNumbersCount, List.filter_cons, hpredBefore, hpredAfter,
          Bool.false_eq_true, if_false, if_true, List.length_cons]
    · have hanum : a.number ≠ n := by
        intro he
        have hmem : b0.number ∈ t.map Ball.number := List.mem_map_of_mem Ball.number hb0t
        rw [hb0num, ← he] at hmem
        exact hnd.1 hmem
      have iht := ih hnd.2 ⟨b0, hb0t, hb0num, hb0act⟩
      simp only [deactivateBall, List.map_cons, if_neg hanum]
      have hmap : (deactivateBall t n) = t.map fun b =>
          if b.number = n then { b with active := false } else b := rfl
      by_cases hpa : (!a.active && a.number != 0) = true
      · constructor
        · simp only [pocketedNumbersSum, List.filter_cons, hpa, if_true, List.map_cons,
            List.sum_cons] at iht ⊢
          rw [← hmap, iht.1]
          omega
        · simp only [pocketedNumbersCount, List.filter_cons, hpa, if_true,
            List.length_cons] at iht ⊢
          rw [← hmap, iht.2]
      · constructor
        · simp only [pocketedNumbersSum, List.filter_cons, hpa, Bool.false_eq_true,
            if_false] at iht ⊢
          rw [← hmap, iht.1]
        · simp only [pocketedNumbersCount, List.filter_cons, hpa, Bool.false_eq_true,
            if_false] at iht ⊢
          rw [← hmap, iht.2]

/-- A reset ball list holds no pocketed numbered ball. -/
theorem resetBalls_pocketed (l : List Ball) :
    pocketedNumbersSum (l.map resetBall) = 0 ∧ pocketedNumbersCount (l.map resetBall) = 0 := by
  induction l with
  | nil => exact ⟨rfl, rfl⟩
  | cons a t ih =>
    have hpred : (!(resetBall a).active && (resetBall a).number != 0) = false := rfl
    simp only [pocketedNumbersSum, pocketedNumbersCount, List.map_cons, List.filter_cons,
      hpred, Bool.false_eq_true, if_false] at ih ⊢
    exact ih

/-- A reset keeps the list of ball numbers. -/
theorem resetBalls_numbers (l : List Ball) :
    (l.map resetBall).map Ball.number = l.map Ball.number := by
  induction l with
  | nil => rfl
  | cons a t ih =>
    simp only [List.map_cons, ih]
    rfl

/-- The cue respawn changes neither the number nor the active flag. -/
theorem cueRespawn_tag (b : Ball) :
    (cueRespawn b).number = b.number ∧ (cueRespawn b).active = b.active := by
  unfold cueRespawn
  split_ifs with h
  · exact ⟨rfl, rfl⟩
  · exact ⟨rfl, rfl⟩

/-- The cue foul keeps the tag of the ball list. -/
theorem cueFoul_tag (l : List Ball) : ballsTag (l.map cueRespawn) = ballsTag l := by
  simp only [ballsTag, List.map_map]
  apply List.map_congr_left
  intro b _
  simp only [Function.comp_apply, (cueRespawn_tag b).1, (cueRespawn_tag b).2]

/-- A motion-plus-collision frame keeps the tag of the ball list. -/
theorem frame_tag (dt : ℝ) (l : List Ball) :
    ballsTag (handleBallCollisions (l.map (updateBallMotion (dt / 100)))) = ballsTag l := by
  rw [handleBallCollisions_tag]
  simp only [ballsTag, List.map_map]
  apply List.map_congr_left
  intro b _
  simp only [Function.comp_apply, (updateBallMotion_tag (dt / 100) b).1,
    (updateBallMotion_tag (dt / 100) b).2]

/-- The bookkeeping invariant: duplicate-free ball numbers, and counters
agreeing with the set of pocketed numbered balls. -/
def StateInv (s : GameState) : Prop :=
  (s.balls.map Ball.number).Nodup ∧
  s.pocketedSum = pocketedNumbersSum s.balls ∧
  s.pocketedCount = pocketedNumbersCount s.balls

/-- The invariant holds at mount. -/
theorem stateInv_init (r : ℕ) : StateInv (initialGameState r) := by
  refine ⟨?_, ?_, ?_⟩
  · show (initialBalls.map Ball.number).Nodup
    have : initialBalls.map Ball.number = [0, 2, 3, 7, 8, 11, 13, 17, 5, 6, 9, 12, 10] := rfl
    rw [this]
    decide
  · rfl
  · rfl

/-- Every game transition preserves the bookkeeping invariant. -/
theorem stateInv_step {s t : GameState} (hs : StateInv s) (h : GameStep s t) : StateInv t := by
  obtain ⟨hnd, hsum, hcnt⟩ := hs
  cases h with
  | motion dt s =>
    have htag := frame_tag dt s.balls
    exact ⟨by rw [numbers_congr htag]; exact hnd,
      by rw [(pocketed_congr htag).1]; exact hsum,
      by rw [(pocketed_congr htag).2]; exact hcnt⟩
  | pocketNumbered r n s hn hex =>
    simp only [pocketNumberedStep]
    split_ifs with h1 h2
    · refine ⟨?_, ?_, ?_⟩
      · show ((s.balls.map fun b => if b.number = n then { b with active := false } else b).map
          resetBall).map Ball.number |>.Nodup
        rw [resetBalls_numbers]
        rw [show (s.balls.map fun b => if b.number = n then { b with active := false } else b)
          = deactivateBall s.balls n from rfl]
        rw [deactivateBall_numbers]
        exact hnd
      · show (0 : ℕ) = pocketedNumbersSum ((s.balls.map fun b =>
          if b.number = n then { b with active := false } else b).map resetBall)
        rw [(resetBalls_pocketed _).1]
      · show (0 : ℕ) = pocketedNumbersCount ((s.balls.map fun b =>
          if b.number = n then { b with active := false } else b).map resetBall)
        rw [(resetBalls_pocketed _).2]
    · have hd := deactivateBall_pocketed n hn s.balls hnd hex
      refine ⟨?_, ?_, ?_⟩
      · show ((deactivateBall s.balls n).map Ball.number).Nodup
        rw [deactivateBall_numbers]
        exact hnd
      · show s.pocketedSum + n = pocketedNumbersSum (deactivateBall s.balls n)
        rw [hd.1, hsum]
      · show s.pocketedCount + 1 = pocketedNumbersCount (deactivateBall s.balls n)
        rw [hd.2, hcnt]
    · have hd := deactivateBall_pocketed n hn s.balls hnd hex
      refine ⟨?_, ?_, ?_⟩
      · show ((deactivateBall s.balls n).map Ball.number).Nodup
        rw [deactivateBall_numbers]
        exact hnd
      · show s.pocketedSum + n = pocketedNumbersSum (deactivateBall s.balls n)
        rw [hd.1, hsum]
      · show s.pocketedCount + 1 = pocketedNumbersCount (deactivateBall s.balls n)
        rw [hd.2, hcnt]
  | cueFoulStep s =>
    have htag := cueFoul_tag s.balls
    refine ⟨?_, ?_, ?_⟩
    · rw [show (cueFoul s).balls = s.balls.map cueRespawn from rfl, numbers_congr htag]
      exact hnd
    · rw [show (cueFoul s).balls = s.balls.map cueRespawn from rfl, (pocketed_congr htag).1]
      exact hsum
    · rw [show (cueFoul s).balls = s.balls.map cueRespawn from rfl, (pocketed_congr htag).2]
      exact hcnt
  | resetStep r s =>
    refine ⟨?_, ?_, ?_⟩
    · show ((s.balls.map resetBall).map Ball.number).Nodup
      rw [resetBalls_numbers]
      exact hnd
    · show (0 : ℕ) = pocketedNumbersSum (s.balls.map resetBall)
      rw [(resetBalls_pocketed _).1]
    · show (0 : ℕ) = pocketedNumbersCount (s.balls.map resetBall)
      rw [(resetBalls_pocketed _).2]

/-- C7: in every reachable state, the pocketed sum is the sum of the
numbers of the pocketed numbered balls and the pocketed count is the number
of such balls; cue pocketing contributes to neither. -/
theorem c7_counter_invariant (s : GameState) (h : Reachable s) :
    s.pocketedSum = pocketedNumbersSum s.balls ∧
    s.pocketedCount = pocketedNumbersCount s.balls := by
  have hinv : StateInv s := by
    induction h with
    | init r => exact stateInv_init r
    | step hr hstep ih => exact stateInv_step ih hstep
  exact ⟨hinv.2.1, hinv.2.2⟩

/-- Witness of C7 at the mount state. -/
theorem c7_counter_invariant_witness :
    (initialGameState 0).pocketedSum = pocketedNumbersSum (initialGameState 0).balls ∧
    (initialGameState 0).pocketedCount = pocketedNumbersCount (initialGameState 0).balls :=
  c7_counter_invariant (initialGameState 0) (Reachable.init 0)

/-- Counterexample to C8: ball 12 starts at y = 350, so its edge already
crosses the bottom rail; a zero-dt integration step still clamps it to
y = 345 and therefore moves it. -/
theorem c8_zero_dt_counterexample :
    (updateBallMotion 0 initBall12).y = 345 ∧ initBall12.y = 350 := by
  constructor
  · simp only [updateBallMotion, initBall12]
    norm_num [Real.rpow_zero, feltLeft, feltRight, feltTop, feltBottom, tableMargin,
      canvasWidth, canvasHeight, min_def, max_def]
  · rfl

/-- C8 amended: a zero-dt integration step is the identity on every ball
whose disc lies inside the felt rectangle; only a ball already crossing a
rail is clamped (and its rail-normal velocity negated) even at dt = 0. -/
theorem c8_zero_dt_identity (b : Ball)
    (hx1 : feltLeft ≤ b.x - b.radius) (hx2 : b.x + b.radius ≤ feltRight)
    (hy1 : feltTop ≤ b.y - b.radius) (hy2 : b.y + b.radius ≤ feltBottom) :
    updateBallMotion 0 b = b := by
  unfold updateBallMotion
  split_ifs with h
  · rfl
  · have hfr : baseFrictionPerSec ^ (0 : ℝ) = 1 := Real.rpow_zero _
    simp only [mul_zero, add_zero, hfr, mul_one]
    rw [if_neg (by rw [not_or]; exact ⟨not_lt.mpr hx1, not_lt.mpr hx2⟩)]
    rw [if_neg (by rw [not_or]; exact ⟨not_lt.mpr hy1, not_lt.mpr hy2⟩)]

/-- Witness of the amended C8 at the in-bounds initial ball 2. -/
theorem c8_zero_dt_identity_witness :
    (feltLeft ≤ initBall2.x - initBall2.radius ∧ initBall2.x + initBall2.radius ≤ feltRight ∧
     feltTop ≤ initBall2.y - initBall2.radius ∧ initBall2.y + initBall2.radius ≤ feltBottom) ∧
    updateBallMotion 0 initBall2 = initBall2 := by
  have h1 : feltLeft ≤ initBall2.x - initBall2.radius := by
    norm_num [initBall2, feltLeft, tableMargin]
  have h2 : initBall2.x + initBall2.radius ≤ feltRight := by
    norm_num [initBall2, feltRight, tableMargin, canvasWidth]
  have h3 : feltTop ≤ initBall2.y - initBall2.radius := by
    norm_num [initBall2, feltTop, tableMargin]
  have h4 : initBall2.y + initBall2.radius ≤ feltBottom := by
    norm_num [initBall2, feltBottom, tableMargin, canvasHeight]
  exact ⟨⟨h1, h2, h3, h4⟩, c8_zero_dt_identity initBall2 h1 h2 h3 h4⟩

/-- C9: with aiming on, the release maps the shot assignment over the ball
list; the assignment leaves every non-cue ball, every inactive ball and a
zero-distance release untouched, and gives the active cue ball the unit
direction towards the release point scaled by min of half the distance and
1000. -/
theorem c9_shot_assignment (mouseX mouseY : ℝ) (balls : List Ball) :
    handleMouseUp true mouseX mouseY balls = balls.map (shotBall mouseX mouseY) ∧
    handleMouseUp false mouseX mouseY balls = balls ∧
    (∀ b : Ball, b.number ≠ 0 → shotBall mouseX mouseY b = b) ∧
    (∀ b : Ball, b.active = false → shotBall mouseX mouseY b = b) ∧
    (∀ b : Ball, b.number = 0 → b.active = true →
      Real.sqrt ((mouseX - b.x) ^ 2 + (mouseY - b.y) ^ 2) = 0 →
      shotBall mouseX mouseY b = b) ∧
    (∀ b : Ball, b.number = 0 → b.active = true →
      0 < Real.sqrt ((mouseX - b.x) ^ 2 + (mouseY - b.y) ^ 2) →
      shotBall mouseX mouseY b =
        { b with
            vx := (mouseX - b.x) / Real.sqrt ((mouseX - b.x) ^ 2 + (mouseY - b.y) ^ 2) *
              min (Real.sqrt ((mouseX - b.x) ^ 2 + (mouseY - b.y) ^ 2) * 0.5) 1000
            vy := (mouseY - b.y) / Real.sqrt ((mouseX - b.x) ^ 2 + (mouseY - b.y) ^ 2) *
              min (Real.sqrt ((mouseX - b.x) ^ 2 + (mouseY - b.y) ^ 2) * 0.5) 1000 }) := by
  refine ⟨rfl, rfl, ?_, ?_, ?_, ?_⟩
  · intro b hb
    simp only [shotBall]
    rw [if_neg]
    rintro ⟨h0, -⟩
    exact hb h0
  · intro b hb
    simp only [shotBall]
    rw [if_neg]
    rintro ⟨-, ha⟩
    rw [hb] at ha
    cases ha
  · intro b h0 ha hd
    simp only [shotBall]
    rw [if_pos ⟨h0, ha⟩, if_neg]
    rw [hd]
    exact lt_irrefl 0
  · intro b h0 ha hd
    simp only [shotBall]
    rw [if_pos ⟨h0, ha⟩, if_pos hd]

/-- The cue ball of the concrete shot witness, at the origin of the canvas. -/
def shotWitnessCue : Ball :=
  { number := 0, x := 0, y := 0, vx := 7, vy := 8, radius := 15,
    color := "white", active := true, initialX := 100, initialY := 200 }

/-- Witness of C9: releasing at (3, 4) from the cue at the origin gives the
velocity (1.5, 2). -/
theorem c9_shot_assignment_witness :
    handleMouseUp true 3 4 [shotWitnessCue] =
      [{ shotWitnessCue with vx := 1.5, vy := 2 }] := by
  have h25 : ((3 : ℝ) - shotWitnessCue.x) ^ 2 + ((4 : ℝ) - shotWitnessCue.y) ^ 2 = 5 ^ 2 := by
    norm_num [shotWitnessCue]
  have hd : Real.sqrt (((3 : ℝ) - shotWitnessCue.x) ^ 2 + ((4 : ℝ) - shotWitnessCue.y) ^ 2)
      = 5 := by
    rw [h25]
    exact Real.sqrt_sq (by norm_num)
  have hmap := (c9_shot_assignment 3 4 [shotWitnessCue]).1
  have hcue := (c9_shot_assignment 3 4 [shotWitnessCue]).2.2.2.2.2 shotWitnessCue rfl rfl
    (by rw [hd]; norm_num)
  rw [hd] at hcue
  rw [hmap, List.map_cons, List.map_nil, hcue]
  have hvx : ((3 : ℝ) - shotWitnessCue.x) / 5 * min ((5 : ℝ) * 0.5) 1000 = 1.5 := by
    norm_num [shotWitnessCue, min_def]
  have hvy : ((4 : ℝ) - shotWitnessCue.y) / 5 * min ((5 : ℝ) * 0.5) 1000 = 2 := by
    norm_num [shotWitnessCue, min_def]
  rw [hvx, hvy]

/-- The collision normal is a unit vector whenever the distance is positive. -/
theorem unit_normal (a b : Ball) (h0 : 0 < ballDist a b) :
    normalX a b ^ 2 + normalY a b ^ 2 = 1 := by
  have hne : ballDist a b ≠ 0 := ne_of_gt h0
  have hsq : ballDist a b ^ 2 = (b.x - a.x) ^ 2 + (b.y - a.y) ^ 2 :=
    Real.sq_sqrt (by positivity)
  simp only [normalX, normalY]
  rw [div_pow, div_pow, div_add_div_same, ← hsq]
  exact div_self (pow_ne_zero 2 hne)

/-- The resolved form of a colliding active pair: tangential components
kept, normal components exchanged, positions pushed apart by half the
overlap each. -/
theorem resolvePair_eq (a b : Ball) (ha : a.active = true) (hb : b.active = true)
    (h0 : 0 < ballDist a b) (hlt : ballDist a b < a.radius + b.radius) :
    resolvePair a b =
      ({ a with
          vx := a.vx - (a.vx * normalX a b + a.vy * normalY a b) * normalX a b +
            (b.vx * normalX a b + b.vy * normalY a b) * normalX a b
          vy := a.vy - (a.vx * normalX a b + a.vy * normalY a b) * normalY a b +
            (b.vx * normalX a b + b.vy * normalY a b) * normalY a b
          x := a.x - (a.radius + b.radius - ballDist a b) / 2 * normalX a b
          y := a.y - (a.radius + b.radius - ballDist a b) / 2 * normalY a b },
       { b with
          vx := b.vx - (b.vx * normalX a b + b.vy * normalY a b) * normalX a b +
            (a.vx * normalX a b + a.vy * normalY a b) * normalX a b
          vy := b.vy - (b.vx * normalX a b + b.vy * normalY a b) * normalY a b +
            (a.vx * normalX a b + a.vy * normalY a b) * normalY a b
          x := b.x + (a.radius + b.radius - ballDist a b) / 2 * normalX a b
          y := b.y + (a.radius + b.radius - ballDist a b) / 2 * normalY a b }) := by
  have hcond : Real.sqrt ((b.x - a.x) ^ 2 + (b.y - a.y) ^ 2) < a.radius + b.radius ∧
      0 < Real.sqrt ((b.x - a.x) ^ 2 + (b.y - a.y) ^ 2) := ⟨hlt, h0⟩
  have hful : (!a.active || !b.active) = false := by rw [ha, hb]; rfl
  simp only [resolvePair, hful, Bool.false_eq_true, if_false]
  rw [if_pos hcond]
  rfl

/-- C4: for every resolved pair of active balls, the velocity components
along the unit collision normal are exchanged and the tangential components
are kept; a head-on pair with equal and opposite velocities along the line
of centers has its normal velocities swapped exactly. -/
theorem c4_collision_exchange (a b : Ball) (ha : a.active = true) (hb : b.active = true)
    (h0 : 0 < ballDist a b) (hlt : ballDist a b < a.radius + b.radius) :
    ((resolvePair a b).1.vx * normalX a b + (resolvePair a b).1.vy * normalY a b =
       b.vx * normalX a b + b.vy * normalY a b) ∧
    ((resolvePair a b).2.vx * normalX a b + (resolvePair a b).2.vy * normalY a b =
       a.vx * normalX a b + a.vy * normalY a b) ∧
    ((resolvePair a b).1.vx -
       ((resolvePair a b).1.vx * normalX a b + (resolvePair a b).1.vy * normalY a b) *
         normalX a b =
       a.vx - (a.vx * normalX a b + a.vy * normalY a b) * normalX a b) ∧
    ((resolvePair a b).1.vy -
       ((resolvePair a b).1.vx * normalX a b + (resolvePair a b).1.vy * normalY a b) *
         normalY a b =
       a.vy - (a.vx * normalX a b + a.vy * normalY a b) * normalY a b) ∧
    ((resolvePair a b).2.vx -
       ((resolvePair a b).2.vx * normalX a b + (resolvePair a b).2.vy * normalY a b) *
         normalX a b =
       b.vx - (b.vx * normalX a b + b.vy * normalY a b) * normalX a b) ∧
    ((resolvePair a b).2.vy -
       ((resolvePair a b).2.vx * normalX a b + (resolvePair a b).2.vy * normalY a b) *
         normalY a b =
       b.vy - (b.vx * normalX a b + b.vy * normalY a b) * normalY a b) ∧
    (∀ c : ℝ, a.vx = c * normalX a b → a.vy = c * normalY a b →
       b.vx = -c * normalX a b → b.vy = -c * normalY a b →
       (resolvePair a b).1.vx = -c * normalX a b ∧ (resolvePair a b).1.vy = -c * normalY a b ∧
       (resolvePair a b).2.vx = c * normalX a b ∧ (resolvePair a b).2.vy = c * normalY a b) := by
  have hunit : normalX a b ^ 2 + normalY a b ^ 2 = 1 := unit_normal a b h0
  rw [resolvePair_eq a b ha hb h0 hlt]
  dsimp only
  refine ⟨?_, ?_, ?_, ?_, ?_, ?_, ?_⟩
  · linear_combination (b.vx * normalX a b + b.vy * normalY a b -
      (a.vx * normalX a b + a.vy * normalY a b)) * hunit
  · linear_combination (a.vx * normalX a b + a.vy * normalY a b -
      (b.vx * normalX a b + b.vy * normalY a b)) * hunit
  · linear_combination ((a.vx * normalX a b + a.vy * normalY a b) -
      (b.vx * normalX a b + b.vy * normalY a b)) * normalX a b * hunit
  · linear_combination ((a.vx * normalX a b + a.vy * normalY a b) -
      (b.vx * normalX a b + b.vy * normalY a b)) * normalY a b * hunit
  · linear_combination ((b.vx * normalX a b + b.vy * normalY a b) -
      (a.vx * normalX a b + a.vy * normalY a b)) * normalX a b * hunit
  · linear_combination ((b.vx * normalX a b + b.vy * normalY a b) -
      (a.vx * normalX a b + a.vy * normalY a b)) * normalY a b * hunit
  · intro c hax hay hbx hby
    rw [hax, hay, hbx, hby]
    refine ⟨?_, ?_, ?_, ?_⟩
    · linear_combination (-2 * c * normalX a b) * hunit
    · linear_combination (-2 * c * normalY a b) * hunit
    · linear_combination (2 * c * normalX a b) * hunit
    · linear_combination (2 * c * normalY a b) * hunit

/-- First ball of the concrete head-on collision pair, moving right. -/
def pairBallA : Ball :=
  { number := 1, x := 0, y := 0, vx := 1, vy := 0, radius := 15,
    color := "red", active := true, initialX := 0, initialY := 0 }

/-- Second ball of the concrete head-on collision pair, moving left. -/
def pairBallB : Ball :=
  { number := 2, x := 18, y := 0, vx := -1, vy := 0, radius := 15,
    color := "blue", active := true, initialX := 18, initialY := 0 }

/-- The concrete pair overlaps at center distance 18. -/
theorem pairBall_dist : ballDist pairBallA pairBallB = 18 := by
  simp only [ballDist, pairBallA, pairBallB]
  rw [show ((18 : ℝ) - 0) ^ 2 + ((0 : ℝ) - 0) ^ 2 = 18 ^ 2 by norm_num]
  exact Real.sqrt_sq (by norm_num)

/-- Witness of C4 at the concrete overlapping pair. -/
theorem c4_collision_exchange_witness :
    pairBallA.active = true ∧ pairBallB.active = true ∧
    0 < ballDist pairBallA pairBallB ∧
    ballDist pairBallA pairBallB < pairBallA.radius + pairBallB.radius ∧
    ((resolvePair pairBallA pairBallB).1.vx * normalX pairBallA pairBallB +
       (resolvePair pairBallA pairBallB).1.vy * normalY pairBallA pairBallB =
       pairBallB.vx * normalX pairBallA pairBallB +
       pairBallB.vy * normalY pairBallA pairBallB) ∧
    ((resolvePair pairBallA pairBallB).2.vx * normalX pairBallA pairBallB +
       (resolvePair pairBallA pairBallB).2.vy * normalY pairBallA pairBallB =
       pairBallA.vx * normalX pairBallA pairBallB +
       pairBallA.vy * normalY pairBallA pairBallB) := by
  have h0 : 0 < ballDist pairBallA pairBallB := by
    rw [pairBall_dist]
    norm_num
  have hlt : ballDist pairBallA pairBallB < pairBallA.radius + pairBallB.radius := by
    rw [pairBall_dist]
    norm_num [pairBallA, pairBallB]
  refine ⟨rfl, rfl, h0, hlt, ?_, ?_⟩
  · exact (c4_collision_exchange pairBallA pairBallB rfl rfl h0 hlt).1
  · exact (c4_collision_exchange pairBallA pairBallB rfl rfl h0 hlt).2.1

/-- C10: pair resolution conserves the vector sum of the two velocities and
the sum of the two squared speeds, in exact real arithmetic; an unresolved
pair is left unchanged, so the conservation holds unconditionally. -/
theorem c10_momentum_energy (a b : Ball) :
    ((resolvePair a b).1.vx + (resolvePair a b).2.vx = a.vx + b.vx) ∧
    ((resolvePair a b).1.vy + (resolvePair a b).2.vy = a.vy + b.vy) ∧
    ((resolvePair a b).1.vx ^ 2 + (resolvePair a b).1.vy ^ 2 +
       (resolvePair a b).2.vx ^ 2 + (resolvePair a b).2.vy ^ 2 =
       a.vx ^ 2 + a.vy ^ 2 + b.vx ^ 2 + b.vy ^ 2) := by
  by_cases hact : a.active = true ∧ b.active = true
  · by_cases hcond : Real.sqrt ((b.x - a.x) ^ 2 + (b.y - a.y) ^ 2) < a.radius + b.radius ∧
        0 < Real.sqrt ((b.x - a.x) ^ 2 + (b.y - a.y) ^ 2)
    · have hunit : normalX a b ^ 2 + normalY a b ^ 2 = 1 := unit_normal a b hcond.2
      rw [resolvePair_eq a b hact.1 hact.2 hcond.2 hcond.1]
      dsimp only
      refine ⟨by ring, by ring, ?_⟩
      linear_combination (2 * ((b.vx * normalX a b + b.vy * normalY a b) -
        (a.vx * normalX a b + a.vy * normalY a b)) ^ 2) * hunit
    · have hful : (!a.active || !b.active) = false := by rw [hact.1, hact.2]; rfl
      have hres : resolvePair a b = (a, b) := by
        simp only [resolvePair, hful, Bool.false_eq_true, if_false]
        rw [if_neg hcond]
      rw [hres]
      exact ⟨rfl, rfl, rfl⟩
  · have hful : (!a.active || !b.active) = true := by
      rcases not_and_or.mp hact with h | h
      · rw [Bool.not_eq_true] at h
        rw [h]
        rfl
      · rw [Bool.not_eq_true] at h
        rw [h]
        simp
    have hres : resolvePair a b = (a, b) := by
      simp only [resolvePair]
      rw [if_pos hful]
    rw [hres]
    exact ⟨rfl, rfl, rfl⟩

/-- Unfolding equation of the ball center distance. -/
theorem ballDist_eq (p q : Ball) :
    ballDist p q = Real.sqrt ((q.x - p.x) ^ 2 + (q.y - p.y) ^ 2) := rfl

/-- C5 amended, positive part: the pair that was just resolved ends exactly
at center distance equal to the sum of the radii. -/
theorem c5_pair_exact_separation (a b : Ball) (ha : a.active = true) (hb : b.active = true)
    (h0 : 0 < ballDist a b) (hlt : ballDist a b < a.radius + b.radius) :
    ballDist (resolvePair a b).1 (resolvePair a b).2 = a.radius + b.radius := by
  have hne : ballDist a b ≠ 0 := ne_of_gt h0
  have hsq : ballDist a b ^ 2 = (b.x - a.x) ^ 2 + (b.y - a.y) ^ 2 :=
    Real.sq_sqrt (by positivity)
  have hm : (0 : ℝ) ≤ a.radius + b.radius := le_of_lt (h0.trans hlt)
  have hdx : b.x + (a.radius + b.radius - ballDist a b) / 2 * normalX a b -
      (a.x - (a.radius + b.radius - ballDist a b) / 2 * normalX a b) =
      (b.x - a.x) * ((a.radius + b.radius) / ballDist a b) := by
    simp only [normalX]
    field_simp
    ring
  have hdy : b.y + (a.radius + b.radius - ballDist a b) / 2 * normalY a b -
      (a.y - (a.radius + b.radius - ballDist a b) / 2 * normalY a b) =
      (b.y - a.y) * ((a.radius + b.radius) / ballDist a b) := by
    simp only [normalY]
    field_simp
    ring
  rw [resolvePair_eq a b ha hb h0 hlt, ballDist_eq]
  dsimp only
  rw [hdx, hdy, mul_pow, mul_pow, ← add_mul, ← hsq, div_pow]
  rw [show ballDist a b ^ 2 * ((a.radius + b.radius) ^ 2 / ballDist a b ^ 2) =
    (a.radius + b.radius) ^ 2 from by field_simp]
  exact Real.sqrt_sq hm

/-- Witness of the amended C5 at the concrete overlapping pair. -/
theorem c5_pair_exact_separation_witness :
    pairBallA.active = true ∧ pairBallB.active = true ∧
    0 < ballDist pairBallA pairBallB ∧
    ballDist pairBallA pairBallB < pairBallA.radius + pairBallB.radius ∧
    ballDist (resolvePair pairBallA pairBallB).1 (resolvePair pairBallA pairBallB).2 =
      pairBallA.radius + pairBallB.radius := by
  have h0 : 0 < ballDist pairBallA pairBallB := by
    rw [pairBall_dist]
    norm_num
  have hlt : ballDist pairBallA pairBallB < pairBallA.radius + pairBallB.radius := by
    rw [pairBall_dist]
    norm_num [pairBallA, pairBallB]
  exact ⟨rfl, rfl, h0, hlt, c5_pair_exact_separation pairBallA pairBallB rfl rfl h0 hlt⟩

/-- First ball of the collinear three-ball chain. -/
def chainA : Ball :=
  { number := 1, x := 0, y := 0, vx := 0, vy := 0, radius := 15,
    color := "red", active := true, initialX := 0, initialY := 0 }

/-- Second ball of the collinear three-ball chain. -/
def chainB : Ball :=
  { number := 2, x := 20, y := 0, vx := 0, vy := 0, radius := 15,
    color := "blue", active := true, initialX := 20, initialY := 0 }

/-- Third ball of the collinear three-ball chain. -/
def chainC : Ball :=
  { number := 3, x := 45, y := 0, vx := 0, vy := 0, radius := 15,
    color := "green", active := true, initialX := 45, initialY := 0 }

/-- The first chain ball after its resolution against the second. -/
def chainA1 : Ball :=
  { number := 1, x := -5, y := 0, vx := 0, vy := 0, radius := 15,
    color := "red", active := true, initialX := 0, initialY := 0 }

/-- The second chain ball after its resolution against the first. -/
def chainB1 : Ball :=
  { number := 2, x := 25, y := 0, vx := 0, vy := 0, radius := 15,
    color := "blue", active := true, initialX := 20, initialY := 0 }

/-- The second chain ball after its further resolution against the third. -/
def chainB2 : Ball :=
  { number := 2, x := 20, y := 0, vx := 0, vy := 0, radius := 15,
    color := "blue", active := true, initialX := 20, initialY := 0 }

/-- The third chain ball after its resolution against the second. -/
def chainC2 : Ball :=
  { number := 3, x := 50, y := 0, vx := 0, vy := 0, radius := 15,
    color := "green", active := true, initialX := 45, initialY := 0 }

/-- Square root of 400. -/
theorem sqrt400 : Real.sqrt (400 : ℝ) = 20 := by
  rw [show (400 : ℝ) = 20 ^ 2 by norm_num]
  exact Real.sqrt_sq (by norm_num)

/-- Square root of 2500. -/
theorem sqrt2500 : Real.sqrt (2500 : ℝ) = 50 := by
  rw [show (2500 : ℝ) = 50 ^ 2 by norm_num]
  exact Real.sqrt_sq (by norm_num)

/-- Square root of 625. -/
theorem sqrt625 : Real.sqrt (625 : ℝ) = 25 := by
  rw [show (625 : ℝ) = 25 ^ 2 by norm_num]
  exact Real.sqrt_sq (by norm_num)

/-- Resolution of the first chain pair. -/
theorem chain_res1 : resolvePair chainA chainB = (chainA1, chainB1) := by
  norm_num [resolvePair, chainA, chainB, chainA1, chainB1, sqrt400, Prod.ext_iff, Ball.mk.injEq]

/-- The pushed-back first ball no longer touches the third. -/
theorem chain_res2 : resolvePair chainA1 chainC = (chainA1, chainC) := by
  norm_num [resolvePair, chainA1, chainC, sqrt2500]

/-- Resolution of the second chain pair reopens the first overlap. -/
theorem chain_res3 : resolvePair chainB1 chainC = (chainB2, chainC2) := by
  norm_num [resolvePair, chainB1, chainC, chainB2, chainC2, sqrt400, Prod.ext_iff, Ball.mk.injEq]

/-- The full collision pass over the three-ball chain. -/
theorem chain_pass :
    handleBallCollisions [chainA, chainB, chainC] = [chainA1, chainB2, chainC2] := by
  simp only [handleBallCollisions, resolveWithRest, chain_res1, chain_res2, chain_res3]

/-- Counterexample to C5: after the full collision pass over the chain, the
first two balls are active yet interpenetrate by 5 pixels, far beyond any
negligible epsilon, because resolving the second pair pushed ball B back
into the already separated ball A. -/
theorem c5_no_interpenetration_counterexample :
    ((handleBallCollisions [chainA, chainB, chainC]).getD 0 chainA).active = true ∧
    ((handleBallCollisions [chainA, chainB, chainC]).getD 1 chainA).active = true ∧
    ballDist ((handleBallCollisions [chainA, chainB, chainC]).getD 0 chainA)
        ((handleBallCollisions [chainA, chainB, chainC]).getD 1 chainA) + 1 <
      ((handleBallCollisions [chainA, chainB, chainC]).getD 0 chainA).radius +
        ((handleBallCollisions [chainA, chainB, chainC]).getD 1 chainA).radius := by
  have hd : ballDist chainA1 chainB2 = 25 := by
    rw [ballDist_eq]
    rw [show ((chainB2.x - chainA1.x) ^ 2 + (chainB2.y - chainA1.y) ^ 2 : ℝ) = 625 by
      norm_num [chainA1, chainB2]]
    exact sqrt625
  rw [chain_pass]
  simp only [List.getD_cons_zero, List.getD_cons_succ]
  refine ⟨rfl, rfl, ?_⟩
  rw [hd]
  norm_num [chainA1, chainB2]
